import Mathlib

/-!
Shallow embedding of the log-analytics engine of `src/src/Logsv2.jsx`:
the record shape produced by `fetchApiLogs`, the aggregation functions
`calculateMetrics` and `generateGraphData`, and the `filteredLogs`
predicate (both the basic variant at lines 1234-1267 and the enhanced
five-field search variant at lines 2968-3010), together with the
engine state machine described by the specification (ingest / query).

Strings are modelled as `List Char` (so that `toLowerCase` and
substring containment are elementary list operations), timestamps as
epoch milliseconds (`Nat`), with the hour-of-day extraction
`getHours t = t / 3600000 % 24` standing for `new Date(t).getHours()`
in a fixed (UTC) time zone.  JavaScript numbers whose uses here stay
integral are modelled as `Nat`; the floating-point division feeding
`Math.round` and the success-rate percentage are modelled exactly
over `ℚ`.
-/

namespace Logs

/-- Character list of a string literal, the model of a JS string. -/
def str (s : String) : List Char := s.data

/-- Lower-casing of a JS string (`toLowerCase`), character by character. -/
def lowerStr (s : List Char) : List Char := s.map Char.toLower

/-- Case-insensitive substring test: models
`hay.toLowerCase().includes(needle.toLowerCase())`. -/
def containsCI (hay needle : List Char) : Bool :=
  decide (lowerStr needle <:+: lowerStr hay)

/-- One log record, with the fields of the mock-backend contract
(`id, timestamp, ip, method, endpoint, status, latency, proxyLatency,
success, userAgent, size, location`) plus the extended-variant fields
(`applicationName, userName, apiName`). -/
structure LogRecord where
  id : List Char
  timestamp : Nat
  ip : List Char
  method : List Char
  endpoint : List Char
  status : Nat
  latency : Nat
  proxyLatency : Nat
  success : Bool
  userAgent : List Char
  size : Nat
  location : List Char
  applicationName : List Char
  userName : List Char
  apiName : List Char
  deriving Repr, DecidableEq

/-- Hour of day of an epoch-millisecond timestamp:
`new Date(t).getHours()` in a fixed (UTC) time zone. -/
def getHours (t : Nat) : Nat := t / 3600000 % 24

/-- JS `Math.round (s / n)` for natural `s` and positive natural `n`:
round half toward positive infinity, computed in integer arithmetic. -/
def jsRound (s n : Nat) : Nat := (2 * s + n) / (2 * n)

/-- Result shape of `calculateMetrics`. -/
structure MetricsSummary where
  totalRequests : Nat
  failedRequests : Nat
  avgLatency : Nat
  uniqueIPs : Nat
  successRate : ℚ
  peakLatency : Nat
  deriving Repr, DecidableEq

/-- Embedding of `calculateMetrics` (Logsv2.jsx lines 1146-1163).
`new Set(xs).size` is the number of distinct elements (`dedup.length`);
`latencies.reduce((a,b) => a+b, 0)` is a left fold from zero;
`Math.round` of the mean is `jsRound`; `Math.max(...latencies)` over a
nonempty `Nat` list is the fold of `max` from zero. -/
def calculateMetrics (logs : List LogRecord) : MetricsSummary :=
  { totalRequests := logs.length
    failedRequests := (logs.filter fun log => decide (400 ≤ log.status)).length
    avgLatency :=
      if 0 < (logs.map fun log => log.latency).length then
        jsRound ((logs.map fun log => log.latency).foldl (fun a b => a + b) 0)
          (logs.map fun log => log.latency).length
      else 0
    uniqueIPs := ((logs.map fun log => log.ip).dedup).length
    successRate :=
      if 0 < logs.length then
        ((logs.length : ℚ) - ((logs.filter fun log => decide (400 ≤ log.status)).length : ℚ))
          / (logs.length : ℚ) * 100
      else 0
    peakLatency :=
      if 0 < (logs.map fun log => log.latency).length then
        (logs.map fun log => log.latency).foldl max 0
      else 0 }

/-- Per-hour counters of the `hourlyData` dictionary of
`generateGraphData`. -/
structure HourCounts where
  requests : Nat
  errors : Nat
  success : Nat
  deriving Repr, DecidableEq

/-- One iteration of the `logs.forEach` grouping loop of
`generateGraphData`: bump the bucket of the record's hour, and exactly
one of its error / success counters according to `status >= 400`. -/
def hourlyStep (hd : Nat → HourCounts) (log : LogRecord) : Nat → HourCounts :=
  fun h =>
    if h = getHours log.timestamp then
      if 400 ≤ log.status then
        { requests := (hd h).requests + 1, errors := (hd h).errors + 1,
          success := (hd h).success }
      else
        { requests := (hd h).requests + 1, errors := (hd h).errors,
          success := (hd h).success + 1 }
    else hd h

/-- The `hourlyData` dictionary after the grouping loop, keyed by hour
(the source keys by the string `"HH:00"`, which determines and is
determined by the hour). Missing keys read as zero counters. -/
def hourlyData (logs : List LogRecord) : Nat → HourCounts :=
  logs.foldl hourlyStep fun _ => ⟨0, 0, 0⟩

/-- Digit character of `n < 10`. -/
def digitChar (n : Nat) : Char := Char.ofNat (48 + n)

/-- The bucket label `String(h).padStart(2, '0') + ":00"` for `h < 100`. -/
def timeKey (h : Nat) : List Char :=
  (if h < 10 then ['0', digitChar h] else [digitChar (h / 10), digitChar (h % 10)])
    ++ str ":00"

/-- One element of the `graphData` array. -/
structure GraphPoint where
  time : List Char
  requests : Nat
  errors : Nat
  success : Nat
  deriving Repr, DecidableEq

/-- Embedding of `generateGraphData` (Logsv2.jsx lines 1166-1199):
group by hour, then read the 24 buckets `"00:00" .. "23:00"` in order,
zero-filled where the dictionary has no entry. -/
def generateGraphData (logs : List LogRecord) : List GraphPoint :=
  (List.range 24).map fun i =>
    { time := timeKey i
      requests := (hourlyData logs i).requests
      errors := (hourlyData logs i).errors
      success := (hourlyData logs i).success }

/-- The `filters` state object: `search` (empty = absent), `method` and
`status` with sentinel `"all"`. -/
structure Filters where
  search : List Char
  method : List Char
  status : List Char
  deriving Repr, DecidableEq

/-- Predicate of the basic `filteredLogs` (Logsv2.jsx lines 1234-1267):
endpoint-only case-insensitive search, exact method match with `"all"`
sentinel, status class by `status >= 400`, and the inclusive hour-range
test from the histogram brush selection (`none` = no selection). -/
def logPasses (f : Filters) (range : Option (Nat × Nat)) (log : LogRecord) : Bool :=
  if f.search ≠ [] ∧ ¬ containsCI log.endpoint f.search then false
  else if f.method ≠ str "all" ∧ log.method ≠ f.method then false
  else if f.status ≠ str "all" ∧
      ((f.status = str "success" ∧ 400 ≤ log.status) ∨
       (f.status = str "error" ∧ log.status < 400)) then false
  else
    match range with
    | some (startHour, endHour) =>
        if getHours log.timestamp < startHour ∨ endHour < getHours log.timestamp then
          false
        else true
    | none => true

/-- Predicate of the enhanced `filteredLogs` (Logsv2.jsx lines
2968-3010): the search clause requires ALL of endpoint, application
name, user name, api name and ip to miss before rejecting; the rest is
as in the basic variant. -/
def logPassesEnhanced (f : Filters) (range : Option (Nat × Nat)) (log : LogRecord) : Bool :=
  if f.search ≠ [] ∧
      ¬ containsCI log.endpoint f.search ∧
      ¬ containsCI log.applicationName f.search ∧
      ¬ containsCI log.userName f.search ∧
      ¬ containsCI log.apiName f.search ∧
      ¬ containsCI log.ip f.search then false
  else if f.method ≠ str "all" ∧ log.method ≠ f.method then false
  else if f.status ≠ str "all" ∧
      ((f.status = str "success" ∧ 400 ≤ log.status) ∨
       (f.status = str "error" ∧ log.status < 400)) then false
  else
    match range with
    | some (startHour, endHour) =>
        if getHours log.timestamp < startHour ∨ endHour < getHours log.timestamp then
          false
        else true
    | none => true

/-- `logs.filter(...)` with the basic predicate. -/
def filteredLogs (logs : List LogRecord) (f : Filters) (range : Option (Nat × Nat)) :
    List LogRecord :=
  logs.filter (logPasses f range)

/-- `logs.filter(...)` with the enhanced predicate. -/
def filteredLogsEnhanced (logs : List LogRecord) (f : Filters)
    (range : Option (Nat × Nat)) : List LogRecord :=
  logs.filter (logPassesEnhanced f range)

/-- The criteria object with every criterion absent or at its sentinel. -/
def noFilters : Filters := { search := [], method := str "all", status := str "all" }

/-- Engine state: the current record set is the only state. -/
structure Engine where
  logs : List LogRecord
  deriving Repr, DecidableEq

/-- `ingest`: whole-collection replace. -/
def ingest (records : List LogRecord) (_e : Engine) : Engine := { logs := records }

/-- Summary query as a state transformer: computes from the state and
returns the state. -/
def querySummary (e : Engine) : MetricsSummary × Engine :=
  (calculateMetrics e.logs, e)

/-- Hourly-buckets query as a state transformer. -/
def queryGraph (e : Engine) : List GraphPoint × Engine :=
  (generateGraphData e.logs, e)

/-- Filter query as a state transformer, also returning the criteria it
was given (to state that they come back unchanged). -/
def queryFilter (f : Filters) (range : Option (Nat × Nat)) (e : Engine) :
    List LogRecord × Filters × Engine :=
  (filteredLogs e.logs f range, f, e)

/-- Failed-request count as the specification words it: records whose
stored `success` flag is false. Stated for comparison with the count
the code computes. -/
def specFailedCount (logs : List LogRecord) : Nat :=
  (logs.filter fun r => r.success == false).length

/-- Exact (unrounded) arithmetic mean of `latencyMs`, as the
specification words it. -/
def specAverageLatency (logs : List LogRecord) : ℚ :=
  ((logs.map fun r => r.latency).sum : ℚ) / (logs.length : ℚ)

/-- A concrete record with the given hour, status, latency and success
flag; the remaining fields are fixed sample values. -/
def mkRec (hour status latency : Nat) (success : Bool) : LogRecord :=
  { id := str "r1", timestamp := hour * 3600000, ip := str "192.168.1.10",
    method := str "GET", endpoint := str "/api/users", status := status,
    latency := latency, proxyLatency := 10, success := success,
    userAgent := str "Mozilla/5.0", size := 1000, location := str "US-West",
    applicationName := str "appAlpha", userName := str "alice",
    apiName := str "usersApi" }

/-- The three-record example scenario of the specification:
(status 200, latency 100, hour 10), (status 500, latency 400, hour 10),
(status 404, latency 50, hour 11), with consistent success flags. -/
def exampleLogs : List LogRecord :=
  [mkRec 10 200 100 true, mkRec 10 500 400 false, mkRec 11 404 50 false]

/-- A record whose stored success flag contradicts its status code. -/
def inconsistentRec : LogRecord := mkRec 0 500 123 true

/-! ### Helper lemmas -/

/-- Left fold of addition from an accumulator is the accumulator plus
the sum. -/
theorem foldl_add (l : List Nat) (c : Nat) :
    l.foldl (fun a b => a + b) c = c + l.sum := by
  induction l generalizing c with
  | nil => simp
  | cons x xs ih => simp [List.foldl_cons, ih, List.sum_cons]; omega

/-- Sums of pointwise-added maps split. -/
theorem sum_map_add {α : Type} (xs : List α) (f g : α → Nat) :
    (xs.map fun x => f x + g x).sum = (xs.map f).sum + (xs.map g).sum := by
  induction xs with
  | nil => simp
  | cons x xs ih => simp [List.map_cons, List.sum_cons, ih]; omega

/-- Integer rounding of the mean: `jsRound` agrees with Mathlib's
`round` of the exact rational quotient when the divisor is positive. -/
theorem jsRound_eq_round (s n : Nat) (hn : 0 < n) :
    (jsRound s n : ℤ) = round ((s : ℚ) / (n : ℚ)) := by
  have hq : ((n : ℚ)) ≠ 0 := Nat.cast_ne_zero.mpr hn.ne'
  have hx : (s : ℚ) / (n : ℚ) + 1 / 2 = ((2 * s + n : ℕ) : ℚ) / ((2 * n : ℕ) : ℚ) := by
    push_cast
    field_simp
    ring
  have h2 : (0 : ℚ) ≤ ((2 * s + n : ℕ) : ℚ) / ((2 * n : ℕ) : ℚ) := by positivity
  rw [round_eq, hx, ← Int.natCast_floor_eq_floor h2, Nat.floor_div_eq_div]
  rfl

/-- After the grouping loop, the request counter of any hour is its
initial value plus the number of records falling in that hour. -/
theorem hourlyData_requests (logs : List LogRecord) (init : Nat → HourCounts) (h : Nat) :
    ((logs.foldl hourlyStep init) h).requests =
      (init h).requests + logs.countP (fun l => getHours l.timestamp == h) := by
  induction logs generalizing init with
  | nil => simp
  | cons l ls ih =>
      rw [List.foldl_cons, ih, List.countP_cons]
      unfold hourlyStep
      by_cases hh : h = getHours l.timestamp
      · subst hh
        simp only [if_pos rfl, beq_self_eq_true, if_pos]
        split <;> simp <;> omega
      · have hne : ¬ (getHours l.timestamp == h) = true :=
          fun hb => hh (beq_iff_eq.mp hb).symm
        simp [hh, hne]

/-- The fold step keeps success + errors = requests at every hour. -/
theorem hourlyData_partition (logs : List LogRecord) (init : Nat → HourCounts)
    (hinit : ∀ h, (init h).success + (init h).errors = (init h).requests) (h : Nat) :
    ((logs.foldl hourlyStep init) h).success + ((logs.foldl hourlyStep init) h).errors =
      ((logs.foldl hourlyStep init) h).requests := by
  induction logs generalizing init with
  | nil => exact hinit h
  | cons l ls ih =>
      rw [List.foldl_cons]
      refine ih _ fun h2 => ?_
      unfold hourlyStep
      by_cases hh : h2 = getHours l.timestamp
      · have := hinit h2
        simp only [if_pos hh]
        split <;> simp <;> omega
      · simp [hh, hinit h2]

/-- Each hour indicator sums to one over the 24-hour range. -/
theorem indicator_sum_one :
    ∀ h, h < 24 →
      ((List.range 24).map fun i => if (h == i : Bool) then 1 else 0).sum = 1 := by
  decide

/-- Counting records hour by hour over the 24 buckets accounts for
every record exactly once. -/
theorem sum_range24_countP (logs : List LogRecord) :
    ((List.range 24).map fun i =>
      logs.countP fun l => getHours l.timestamp == i).sum = logs.length := by
  induction logs with
  | nil => simp
  | cons l ls ih =>
      have hlt : getHours l.timestamp < 24 := Nat.mod_lt _ (by norm_num)
      have hcons : ((List.range 24).map fun i =>
          (l :: ls).countP fun r => getHours r.timestamp == i) =
          (List.range 24).map fun i =>
            (ls.countP fun r => getHours r.timestamp == i) +
              (if (getHours l.timestamp == i : Bool) then 1 else 0) := by
        refine List.map_congr_left fun i _ => ?_
        rw [List.countP_cons]
      rw [hcons, sum_map_add, ih, indicator_sum_one _ hlt, List.length_cons]

/-! ### Claim theorems -/

/-- C3: computeSummary on the empty record set returns the all-zero
summary (success rate 0, average latency 0, peak latency 0), with no
division by zero: the source guards every empty-input branch. -/
theorem C3_emptySummary :
    calculateMetrics [] =
      { totalRequests := 0, failedRequests := 0, avgLatency := 0,
        uniqueIPs := 0, successRate := 0, peakLatency := 0 } := by
  rfl

/-- C6: filtering with no criteria set (empty search, method and status
at their `"all"` sentinels, no hour-range selection) returns the record
set unchanged, in order. -/
theorem C6_filterIdentity (logs : List LogRecord) :
    filteredLogs logs noFilters none = logs := by
  unfold filteredLogs
  rw [List.filter_eq_self]
  intro a _
  simp [logPasses, noFilters]

/-- C9: the three query operations are side-effect-free reads: each
returns the engine state unchanged, the filter query returns its
criteria unchanged, and a summary taken after a filter query equals the
summary taken before it. -/
theorem C9_queriesPure (e : Engine) (f : Filters) (range : Option (Nat × Nat)) :
    (queryFilter f range e).2.2 = e ∧
    (queryFilter f range e).2.1 = f ∧
    (querySummary e).2 = e ∧
    (queryGraph e).2 = e ∧
    (querySummary (queryFilter f range e).2.2).1 = (querySummary e).1 :=
  ⟨rfl, rfl, rfl, rfl, rfl⟩

/-- C5: an inverted hour range (start hour strictly above end hour)
filters out every record: the source compares hours numerically with no
wraparound, so the result is always empty. -/
theorem C5_invertedRange (logs : List LogRecord) (startHour endHour : Nat)
    (h : endHour < startHour) :
    filteredLogs logs noFilters (some (startHour, endHour)) = [] := by
  unfold filteredLogs
  rw [List.filter_eq_nil_iff]
  intro log _
  have hcase : getHours log.timestamp < startHour ∨ endHour < getHours log.timestamp := by
    omega
  simp [logPasses, noFilters, hcase]

/-- C5 witness: the concrete inverted range [5,3] on the example logs. -/
theorem C5_invertedRange_witness :
    (3 : Nat) < 5 ∧ filteredLogs exampleLogs noFilters (some (5, 3)) = [] :=
  ⟨by decide, C5_invertedRange exampleLogs 5 3 (by decide)⟩

/-- C1 counterexample: on a record whose stored success flag is true
but whose status code is 500, the code counts one failed request while
the success-flag count is zero — the source counts by
`status >= 400`, not by the stored flag. -/
theorem C1_counterexample :
    (calculateMetrics [inconsistentRec]).failedRequests ≠
      specFailedCount [inconsistentRec] := by
  decide

/-- C1 (amended): failedRequests is the number of records with
status code at least 400; it coincides with the count of records whose
stored success flag is false exactly on record sets whose success flags
are consistent with their status codes. -/
theorem C1_failedRequests (logs : List LogRecord)
    (hcons : ∀ r ∈ logs, r.success = decide (r.status < 400)) :
    (calculateMetrics logs).failedRequests = specFailedCount logs := by
  show (logs.filter fun log => decide (400 ≤ log.status)).length =
    (logs.filter fun r => r.success == false).length
  congr 1
  refine List.filter_congr fun r hr => ?_
  rw [hcons r hr]
  rcases Nat.lt_or_ge r.status 400 with h4 | h4
  · simp [h4, Nat.not_le.mpr h4]
  · simp [h4, Nat.not_lt.mpr h4]

/-- Two records with consistent success flags. -/
def consistentLogs : List LogRecord :=
  [mkRec 0 200 100 true, mkRec 0 500 400 false]

/-- C1 witness: the amended theorem at a concrete consistent set. -/
theorem C1_failedRequests_witness :
    (calculateMetrics consistentLogs).failedRequests = specFailedCount consistentLogs :=
  C1_failedRequests consistentLogs (by decide)

/-- C2 counterexample: on the three-record example with latencies
100, 400, 50 the code yields the rounded value 183, not the exact
mean 550/3 = 183.33... . -/
theorem C2_counterexample :
    ((calculateMetrics exampleLogs).avgLatency : ℚ) ≠ specAverageLatency exampleLogs := by
  have h1 : (calculateMetrics exampleLogs).avgLatency = 183 := by decide
  have h2 : specAverageLatency exampleLogs = 550 / 3 := by
    simp [specAverageLatency, exampleLogs, mkRec]
    norm_num
  rw [h1, h2]
  norm_num

/-- Projection of the average-latency field of the summary. -/
theorem calculateMetrics_avgLatency (logs : List LogRecord) :
    (calculateMetrics logs).avgLatency =
      if 0 < logs.length then
        jsRound ((logs.map fun r => r.latency).sum) logs.length
      else 0 := by
  simp [calculateMetrics, List.length_map, foldl_add]

/-- C2 (amended): on a non-empty record set, averageLatencyMs is the
exact arithmetic mean rounded to the nearest integer (halves rounding
up), because the source applies Math.round to the mean. -/
theorem C2_avgLatency (logs : List LogRecord) (h : logs ≠ []) :
    ((calculateMetrics logs).avgLatency : ℤ) = round (specAverageLatency logs) := by
  have hlen : 0 < logs.length := List.length_pos.mpr h
  rw [calculateMetrics_avgLatency, if_pos hlen,
    jsRound_eq_round _ _ hlen]
  unfold specAverageLatency
  rw [Nat.cast_list_sum, List.map_map]
  rfl

/-- C2 witness: the amended theorem at the three-record example. -/
theorem C2_avgLatency_witness :
    exampleLogs ≠ [] ∧
      ((calculateMetrics exampleLogs).avgLatency : ℤ) =
        round (specAverageLatency exampleLogs) :=
  ⟨by decide, C2_avgLatency exampleLogs (by decide)⟩

/-- C4: computeHourlyBuckets always yields exactly 24 buckets, labelled
"00:00" .. "23:00" in hour order, and their request totals sum to the
number of ingested records. -/
theorem C4_hourlyBuckets (logs : List LogRecord) :
    (generateGraphData logs).length = 24 ∧
    (generateGraphData logs).map GraphPoint.time = (List.range 24).map timeKey ∧
    ((generateGraphData logs).map GraphPoint.requests).sum = logs.length := by
  refine ⟨by simp [generateGraphData], ?_, ?_⟩
  · simp [generateGraphData, List.map_map, Function.comp_def]
  · have h1 : (generateGraphData logs).map GraphPoint.requests =
        (List.range 24).map fun i => (hourlyData logs i).requests := by
      simp [generateGraphData, List.map_map, Function.comp_def]
    have h2 : ((List.range 24).map fun i => (hourlyData logs i).requests) =
        (List.range 24).map fun i => logs.countP fun l => getHours l.timestamp == i := by
      refine List.map_congr_left fun i _ => ?_
      simpa [hourlyData] using hourlyData_requests logs (fun _ => ⟨0, 0, 0⟩) i
    rw [h1, h2, sum_range24_countP]

/-- C10: in every hourly bucket the success and error counters
partition the total: successCount + errorCount = totalCount. -/
theorem C10_bucketPartition (logs : List LogRecord) (b : GraphPoint)
    (hb : b ∈ generateGraphData logs) :
    b.success + b.errors = b.requests := by
  unfold generateGraphData at hb
  rw [List.mem_map] at hb
  obtain ⟨i, _, rfl⟩ := hb
  simpa [hourlyData] using
    hourlyData_partition logs (fun _ => ⟨0, 0, 0⟩) (fun _ => rfl) i

/-- The "10:00" bucket of the example scenario. -/
def bucket10 : GraphPoint :=
  { time := timeKey 10, requests := 2, errors := 1, success := 1 }

/-- C10 witness: the partition equation at the concrete "10:00" bucket
of the example scenario. -/
theorem C10_bucketPartition_witness :
    bucket10.success + bucket10.errors = bucket10.requests :=
  C10_bucketPartition exampleLogs bucket10 (by decide)

/-- C7: with a non-empty search text and every other criterion at its
sentinel, a record passes the basic filter predicate iff its endpoint
contains the text case-insensitively, and passes the enhanced filter
predicate iff at least one of endpoint, application name, user name,
api name, or ip contains it case-insensitively (OR across fields). -/
theorem C7_textSearch (log : LogRecord) (t : List Char) (ht : t ≠ []) :
    (logPasses { search := t, method := str "all", status := str "all" } none log = true ↔
      containsCI log.endpoint t = true) ∧
    (logPassesEnhanced { search := t, method := str "all", status := str "all" } none log
        = true ↔
      (containsCI log.endpoint t = true ∨ containsCI log.applicationName t = true ∨
       containsCI log.userName t = true ∨ containsCI log.apiName t = true ∨
       containsCI log.ip t = true)) := by
  constructor
  · by_cases hc : containsCI log.endpoint t = true <;> simp [logPasses, ht, hc]
  · by_cases h1 : containsCI log.endpoint t = true <;>
      by_cases h2 : containsCI log.applicationName t = true <;>
        by_cases h3 : containsCI log.userName t = true <;>
          by_cases h4 : containsCI log.apiName t = true <;>
            by_cases h5 : containsCI log.ip t = true <;>
              simp [logPassesEnhanced, ht, h1, h2, h3, h4, h5]

/-- C7 witness: the basic predicate at a concrete record whose endpoint
"/api/users" contains the search text "users". -/
theorem C7_textSearch_witness :
    logPasses { search := str "users", method := str "all", status := str "all" } none
      (mkRec 10 200 100 true) = true :=
  ((C7_textSearch (mkRec 10 200 100 true) (str "users") (by decide)).1).mpr (by decide)

/-- C8: filtering on method "GET" keeps exactly the records whose
method equals "GET", and with the sentinel "all" the method field of a
record has no influence on the outcome. -/
theorem C8_methodFilter :
    (∀ logs : List LogRecord,
      filteredLogs logs { search := [], method := str "GET", status := str "all" } none =
        logs.filter fun r => r.method == str "GET") ∧
    (∀ (f : Filters) (range : Option (Nat × Nat)) (log : LogRecord) (m : List Char),
      f.method = str "all" →
        logPasses f range { log with method := m } = logPasses f range log) := by
  constructor
  · intro logs
    unfold filteredLogs
    refine List.filter_congr fun log _ => ?_
    have hga : str "GET" ≠ str "all" := by decide
    by_cases hm : log.method = str "GET" <;> simp [logPasses, hga, hm]
  · intro f range log m hf
    cases range <;> simp [logPasses, hf]

/-- C8 witness: the method filter on the example logs, and the
method-irrelevance under the "all" sentinel at a concrete record. -/
theorem C8_methodFilter_witness :
    filteredLogs exampleLogs { search := [], method := str "GET", status := str "all" } none =
        exampleLogs.filter (fun r => r.method == str "GET") ∧
      logPasses noFilters none { inconsistentRec with method := str "PUT" } =
        logPasses noFilters none inconsistentRec :=
  ⟨C8_methodFilter.1 exampleLogs,
   C8_methodFilter.2 noFilters none inconsistentRec (str "PUT") rfl⟩

end Logs
